import Mathlib

/-!
Verification of the streaming chat client of this repository.

The embedding below transcribes the client logic of `handleSubmit` and
`handleClearChat` (files `src/unnamed/part_000` and
`src/frontend/app/page.tsx`).  The two files differ only in that the
second one additionally validates a user supplied API key and sends it in
the request body; both variants are embedded.

The client consumes the streamed response body with
`decoder.decode(value, { stream: true })`, a stateful WHATWG UTF-8
decoder.  The decoder is embedded byte for byte after the WHATWG
encoding standard's UTF-8 decoder (the specification `TextDecoder`
implements); bytes and code points are `Nat`.
-/

/-! ## The stateful UTF-8 decoder (`TextDecoder` with `stream: true`) -/

/-- State of the WHATWG UTF-8 decoder: code point being assembled, how many
continuation bytes are needed and already seen, and the admissible range
of the next continuation byte. -/
structure Dec where
  cp : Nat
  needed : Nat
  seen : Nat
  lo : Nat
  hi : Nat
deriving DecidableEq

/-- Initial decoder state. -/
def initDec : Dec := ⟨0, 0, 0, 0x80, 0xBF⟩

/-- One step of the WHATWG UTF-8 decoder on byte `b`: next state, emitted
code points, and whether `b` must be reprocessed from the initial state
(the standard's "prepend byte to stream" on a malformed continuation).
Inside the guarded branches `b - 0xC0`, `b - 0xE0`, `b - 0xF0` and
`b - 0x80` are the standard's `b AND 0x1F / 0xF / 0x7 / 0x3F`. -/
def utf8Step (d : Dec) (b : Nat) : Dec × List Nat × Bool :=
  if d.needed = 0 then
    if b ≤ 0x7F then (initDec, [b], false)
    else if 0xC2 ≤ b ∧ b ≤ 0xDF then
      ({ cp := b - 0xC0, needed := 1, seen := 0, lo := 0x80, hi := 0xBF }, [], false)
    else if 0xE0 ≤ b ∧ b ≤ 0xEF then
      ({ cp := b - 0xE0, needed := 2, seen := 0,
         lo := if b = 0xE0 then 0xA0 else 0x80,
         hi := if b = 0xED then 0x9F else 0xBF }, [], false)
    else if 0xF0 ≤ b ∧ b ≤ 0xF4 then
      ({ cp := b - 0xF0, needed := 3, seen := 0,
         lo := if b = 0xF0 then 0x90 else 0x80,
         hi := if b = 0xF4 then 0x8F else 0xBF }, [], false)
    else (initDec, [0xFFFD], false)
  else
    if d.lo ≤ b ∧ b ≤ d.hi then
      if d.seen + 1 = d.needed then (initDec, [d.cp * 64 + (b - 0x80)], false)
      else ({ cp := d.cp * 64 + (b - 0x80), needed := d.needed, seen := d.seen + 1,
              lo := 0x80, hi := 0xBF }, [], false)
    else (initDec, [0xFFFD], true)

/-- Process one byte, performing the reprocessing the standard prescribes
for a malformed continuation byte.  A reprocessed byte is handled in the
`needed = 0` branch of `utf8Step`, which never asks to reprocess again. -/
def processByte (d : Dec) (b : Nat) : Dec × List Nat :=
  let r := utf8Step d b
  if r.2.2 then
    let r2 := utf8Step initDec b
    (r2.1, r.2.1 ++ r2.2.1)
  else (r.1, r.2.1)

/-- Run the decoder over a list of bytes, returning the final state and
the emitted code points.  No end-of-stream flush is performed: the client
always decodes with `stream: true` and never flushes, so an incomplete
trailing sequence simply stays pending in the state. -/
def processBytes (d : Dec) : List Nat → Dec × List Nat
  | [] => (d, [])
  | b :: bs =>
    let r := processByte d b
    let rest := processBytes r.1 bs
    (rest.1, r.2 ++ rest.2)

/-- Code points to a string. -/
def toStr (l : List Nat) : String := ⟨l.map Char.ofNat⟩

/-- `decoder.decode(chunk, { stream: true })`: new decoder state and the
decoded text of one chunk. -/
def decodeChunk (d : Dec) (chunk : List Nat) : Dec × String :=
  ((processBytes d chunk).1, toStr (processBytes d chunk).2)

/-- Standard UTF-8 encoding of a code point (valid scalar values only are
ever passed to it). -/
def encodeCp (c : Nat) : List Nat :=
  if c ≤ 0x7F then [c]
  else if c ≤ 0x7FF then [0xC0 + c / 64, 0x80 + c % 64]
  else if c ≤ 0xFFFF then [0xE0 + c / 4096, 0x80 + c / 64 % 64, 0x80 + c % 64]
  else [0xF0 + c / 262144, 0x80 + c / 4096 % 64, 0x80 + c / 64 % 64, 0x80 + c % 64]

/-- UTF-8 encoding of a list of code points. -/
def encodeCps (l : List Nat) : List Nat := (l.map encodeCp).flatten

/-- UTF-8 encoding of a string, the byte form in which the relay's text
increments travel over the transport. -/
def utf8Encode (s : String) : List Nat := encodeCps (s.data.map Char.toNat)

/-! ## Client data model and submission semantics

`handleSubmit` mutates React state through a sequence of state-setter
calls.  The embedding makes that sequence explicit: a submission, given
the outcome of the `fetch` (the only external input), produces the list
of state mutations (`Event`) the source performs, in source order, and
`applyEvent` gives each mutation's meaning on the client state. -/

/-- One entry of the `messages` state: `{ role, content }`. -/
structure Turn where
  role : String
  content : String
deriving DecidableEq

/-- The JSON body `handleSubmit` posts to `/api/chat`.  `api_key` is
`none` in the variant without a key field (`src/unnamed/part_000`) and
`some` in the keyed variant (`src/frontend/app/page.tsx`). -/
structure ChatRequest where
  developer_message : String
  user_message : String
  model : String
  api_key : Option String
deriving DecidableEq

/-- The component state of `Home`: chat history, loading flag, error
banner and the form inputs. -/
structure ChatState where
  messages : List Turn
  isLoading : Bool
  error : String
  userMessage : String
  developerMessage : String
  model : String
  apiKey : String
deriving DecidableEq

/-- A thrown JavaScript value as the `catch` block sees it: an `Error`
with a message, or any other value. -/
inductive JsError where
  | error (message : String)
  | other
deriving DecidableEq

/-- `err instanceof Error ? err.message : 'An error occurred'`. -/
def surfaceMsg : JsError → String
  | .error m => m
  | .other => "An error occurred"

/-- A streamed response body: the byte chunks successfully read, followed
either by a clean end of stream (`readError = none`) or by a rejected
`reader.read()` (`readError = some e`). -/
structure StreamBody where
  chunks : List (List Nat)
  readError : Option JsError
deriving DecidableEq

/-- Outcome of the `fetch` call: rejection (network failure), or a
response with a status and an optional body (`response.body` can be
absent, in which case the source throws `'No response body'`). -/
inductive FetchResult where
  | netError (e : JsError)
  | response (status : Nat) (body : Option StreamBody)
deriving DecidableEq

/-- One state mutation performed by the source. -/
inductive Event where
  | setError (msg : String)
  | setLoading (b : Bool)
  | appendMessage (t : Turn)
  | updateLastMessage (t : Turn)
  | filterEmpty
  | clearMessages
  | setUserMessage (s : String)
  | fetchCall (req : ChatRequest)
deriving DecidableEq

/-- Meaning of each mutation.  `updateLastMessage` renders
`updated[updated.length - 1] = t`: on a JavaScript array of length 0 this
assigns to index `-1`, which creates a non-index property and leaves the
element list empty, so an empty `messages` stays empty.  `filterEmpty`
renders `prev.filter(msg => msg.content !== '')`.  `fetchCall` marks the
network call; it does not change client state. -/
def applyEvent (s : ChatState) (e : Event) : ChatState :=
  match e with
  | .setError m => { s with error := m }
  | .setLoading b => { s with isLoading := b }
  | .appendMessage t => { s with messages := s.messages ++ [t] }
  | .updateLastMessage t =>
      { s with messages :=
          if s.messages.isEmpty then s.messages else s.messages.dropLast ++ [t] }
  | .filterEmpty => { s with messages := s.messages.filter (fun m => m.content != "") }
  | .clearMessages => { s with messages := [] }
  | .setUserMessage m => { s with userMessage := m }
  | .fetchCall _ => s

/-- `!s.trim()`: true when the string is empty or all whitespace, i.e.
empty after trimming. -/
def isBlank (s : String) : Bool := s.data.all Char.isWhitespace

/-- The two setter calls of the catch block: surface the error message,
then remove every message whose content is the empty string. -/
def catchEvents (msg : String) : List Event := [.setError msg, .filterEmpty]

/-- The read loop's mutations.  `acc` is the local `assistantMessage`
accumulator; each successfully read chunk is decoded with the stateful
decoder, appended to `acc`, and written over the last message. -/
def incrementEvents : Dec → String → List (List Nat) → List Event
  | _, _, [] => []
  | d, acc, ch :: rest =>
    let r := decodeChunk d ch
    .updateLastMessage ⟨"assistant", acc ++ r.2⟩ :: incrementEvents r.1 (acc ++ r.2) rest

/-- Mutations after a 2xx response: if there is no body, throw
`'No response body'` (caught below); otherwise append the empty assistant
placeholder, run the read loop, and on clean end of stream clear the
input field, while a read error goes to the catch block. -/
def streamEvents (body : Option StreamBody) : List Event :=
  match body with
  | none => catchEvents "No response body"
  | some sb =>
    .appendMessage ⟨"assistant", ""⟩ :: incrementEvents initDec "" sb.chunks ++
      match sb.readError with
      | some e => catchEvents (surfaceMsg e)
      | none => [.setUserMessage ""]

/-- `response.ok`: status in the 2xx range. -/
def okStatus (status : Nat) : Prop := 200 ≤ status ∧ status ≤ 299

instance (status : Nat) : Decidable (okStatus status) := by
  unfold okStatus; infer_instance

/-- Mutations chosen by the fetch outcome: a rejected fetch or a non-2xx
status goes to the catch block, a 2xx response is streamed. -/
def branchEvents (fr : FetchResult) : List Event :=
  match fr with
  | .netError e => catchEvents (surfaceMsg e)
  | .response status body =>
    if okStatus status then streamEvents body
    else catchEvents ("API error: " ++ toString status)

/-- Mutations from the `try` onward, shared by both variants: clear the
error, set loading, append the user turn, issue the request, then branch
on the fetch outcome; `finally` resets the loading flag. -/
def mainEvents (req : ChatRequest) (userMessage : String) (fr : FetchResult) : List Event :=
  [.setError "", .setLoading true, .appendMessage ⟨"user", userMessage⟩, .fetchCall req] ++
    branchEvents fr ++ [.setLoading false]

/-- The request body of the variant without an API key field
(`src/unnamed/part_000`). -/
def buildRequest (s : ChatState) : ChatRequest :=
  { developer_message := if s.developerMessage = "" then "You are a helpful assistant."
      else s.developerMessage,
    user_message := s.userMessage, model := s.model, api_key := none }

/-- The request body of the keyed variant (`src/frontend/app/page.tsx`). -/
def buildRequestKeyed (s : ChatState) : ChatRequest :=
  { developer_message := if s.developerMessage = "" then "You are a helpful assistant."
      else s.developerMessage,
    user_message := s.userMessage, model := s.model, api_key := some s.apiKey }

/-- `handleSubmit` of `src/unnamed/part_000`: validate the message, then
run the shared submission body. -/
def submitEvents (s : ChatState) (fr : FetchResult) : List Event :=
  if isBlank s.userMessage then [.setError "Please enter a message"]
  else mainEvents (buildRequest s) s.userMessage fr

/-- `handleSubmit` of `src/frontend/app/page.tsx`: additionally rejects a
blank API key before the message validation. -/
def submitEventsKeyed (s : ChatState) (fr : FetchResult) : List Event :=
  if isBlank s.apiKey then [.setError "Please provide an API key"]
  else if isBlank s.userMessage then [.setError "Please enter a message"]
  else mainEvents (buildRequestKeyed s) s.userMessage fr

/-- Final client state of a submission. -/
def runSubmit (s : ChatState) (fr : FetchResult) : ChatState :=
  (submitEvents s fr).foldl applyEvent s

/-- `handleClearChat`: empty the message list and clear the error. -/
def clearEvents : List Event := [.clearMessages, .setError ""]

/-- Total decoded text of a list of chunks fed to the stateful decoder in
sequence from state `d`. -/
def streamOut (d : Dec) : List (List Nat) → String
  | [] => ""
  | ch :: rest => (decodeChunk d ch).2 ++ streamOut (decodeChunk d ch).1 rest

/-- Whether the state has any assistant turn at all. -/
def hasAssistantTurn (s : ChatState) : Bool := s.messages.any (fun t => t.role == "assistant")

/-! ## Decoder lemmas: chunking invariance and round trip -/

theorem str_data_append (a b : String) : (a ++ b).data = a.data ++ b.data :=
  String.data_append a b

theorem toStr_append (a b : List Nat) : toStr (a ++ b) = toStr a ++ toStr b := by
  apply String.ext
  simp [toStr, str_data_append]

theorem processBytes_append (d : Dec) (a b : List Nat) :
    processBytes d (a ++ b) =
      ((processBytes (processBytes d a).1 b).1,
        (processBytes d a).2 ++ (processBytes (processBytes d a).1 b).2) := by
  induction a generalizing d with
  | nil => simp [processBytes]
  | cons x xs ih => simp [processBytes, ih]

theorem streamOut_flatten (d : Dec) (chunks : List (List Nat)) :
    streamOut d chunks = toStr (processBytes d chunks.flatten).2 := by
  induction chunks generalizing d with
  | nil => simp [streamOut, processBytes, toStr]
  | cons ch rest ih =>
    simp only [streamOut, List.flatten_cons, processBytes_append, decodeChunk, ih, toStr_append]

theorem decode_enc1 (c : Nat) (h : c ≤ 0x7F) :
    processBytes initDec (encodeCp c) = (initDec, [c]) := by
  simp [encodeCp, h, processBytes, processByte, utf8Step, initDec]

theorem decode_enc2 (c : Nat) (h1 : 0x80 ≤ c) (h2 : c ≤ 0x7FF) :
    processBytes initDec (encodeCp c) = (initDec, [c]) := by
  have e1 : ¬ c ≤ 0x7F := by omega
  have e2 : ¬ (0xC0 + c / 64 ≤ 0x7F) := by omega
  have e3 : 0xC2 ≤ 0xC0 + c / 64 ∧ 0xC0 + c / 64 ≤ 0xDF := by omega
  have e4 : 0x80 ≤ 0x80 + c % 64 ∧ 0x80 + c % 64 ≤ 0xBF := by omega
  simp [encodeCp, e1, h2, processBytes, processByte, utf8Step, initDec, e2, e3, e4]
  omega

theorem decode_enc3 (c : Nat) (h1 : 0x800 ≤ c) (h2 : c ≤ 0xFFFF)
    (h3 : c < 0xD800 ∨ 0xDFFF < c) :
    processBytes initDec (encodeCp c) = (initDec, [c]) := by
  have e1 : ¬ c ≤ 0x7F := by omega
  have e2 : ¬ c ≤ 0x7FF := by omega
  have e3 : ¬ (0xE0 + c / 4096 ≤ 0x7F) := by omega
  have e4 : ¬ (0xC2 ≤ 0xE0 + c / 4096 ∧ 0xE0 + c / 4096 ≤ 0xDF) := by omega
  have e5 : 0xE0 ≤ 0xE0 + c / 4096 ∧ 0xE0 + c / 4096 ≤ 0xEF := by omega
  have e7 : 0x80 ≤ 0x80 + c / 64 % 64 ∧ 0x80 + c / 64 % 64 ≤ 0xBF := by omega
  have e8 : 0x80 ≤ 0x80 + c % 64 ∧ 0x80 + c % 64 ≤ 0xBF := by omega
  by_cases q0 : c / 4096 = 0
  · have f0 : 0xE0 + c / 4096 = 0xE0 := by omega
    have f1 : ¬ (0xE0 + c / 4096 = 0xED) := by omega
    have f2 : 0xA0 ≤ 0x80 + c / 64 % 64 := by omega
    simp [encodeCp, e1, e2, h2, processBytes, processByte, utf8Step, initDec,
      e3, e4, e5, e7, e8, f0, f1, f2]
    omega
  · have f0 : ¬ (0xE0 + c / 4096 = 0xE0) := by omega
    by_cases qd : c / 4096 = 13
    · have f1 : 0xE0 + c / 4096 = 0xED := by omega
      have f2 : 0x80 + c / 64 % 64 ≤ 0x9F := by omega
      simp [encodeCp, e1, e2, h2, processBytes, processByte, utf8Step, initDec,
        e3, e4, e5, e7, e8, f0, f1, f2]
      omega
    · have f1 : ¬ (0xE0 + c / 4096 = 0xED) := by omega
      simp [encodeCp, e1, e2, h2, processBytes, processByte, utf8Step, initDec,
        e3, e4, e5, e7, e8, f0, f1]
      omega

theorem decode_enc4 (c : Nat) (h1 : 0x10000 ≤ c) (h2 : c ≤ 0x10FFFF) :
    processBytes initDec (encodeCp c) = (initDec, [c]) := by
  have e1 : ¬ c ≤ 0x7F := by omega
  have e2 : ¬ c ≤ 0x7FF := by omega
  have e2a : ¬ c ≤ 0xFFFF := by omega
  have e3 : ¬ (0xF0 + c / 262144 ≤ 0x7F) := by omega
  have e4 : ¬ (0xC2 ≤ 0xF0 + c / 262144 ∧ 0xF0 + c / 262144 ≤ 0xDF) := by omega
  have e5 : ¬ (0xE0 ≤ 0xF0 + c / 262144 ∧ 0xF0 + c / 262144 ≤ 0xEF) := by omega
  have e6 : 0xF0 ≤ 0xF0 + c / 262144 ∧ 0xF0 + c / 262144 ≤ 0xF4 := by omega
  have e7 : 0x80 ≤ 0x80 + c / 4096 % 64 ∧ 0x80 + c / 4096 % 64 ≤ 0xBF := by omega
  have e8 : 0x80 ≤ 0x80 + c / 64 % 64 ∧ 0x80 + c / 64 % 64 ≤ 0xBF := by omega
  have e9 : 0x80 ≤ 0x80 + c % 64 ∧ 0x80 + c % 64 ≤ 0xBF := by omega
  by_cases q0 : c / 262144 = 0
  · have f0 : 0xF0 + c / 262144 = 0xF0 := by omega
    have f1 : ¬ (0xF0 + c / 262144 = 0xF4) := by omega
    have f2 : 0x90 ≤ 0x80 + c / 4096 % 64 := by omega
    simp [encodeCp, e1, e2, e2a, processBytes, processByte, utf8Step, initDec,
      e3, e4, e5, e6, e7, e8, e9, f0, f1, f2]
    omega
  · have f0 : ¬ (0xF0 + c / 262144 = 0xF0) := by omega
    by_cases q4 : c / 262144 = 4
    · have f1 : 0xF0 + c / 262144 = 0xF4 := by omega
      have f2 : 0x80 + c / 4096 % 64 ≤ 0x8F := by omega
      simp [encodeCp, e1, e2, e2a, processBytes, processByte, utf8Step, initDec,
        e3, e4, e5, e6, e7, e8, e9, f0, f1, f2]
      omega
    · have f1 : ¬ (0xF0 + c / 262144 = 0xF4) := by omega
      simp [encodeCp, e1, e2, e2a, processBytes, processByte, utf8Step, initDec,
        e3, e4, e5, e6, e7, e8, e9, f0, f1]
      omega

/-- Round trip for one valid Unicode scalar value: the decoder maps its
UTF-8 encoding back to it and returns to the initial state. -/
theorem decode_encodeCp (c : Nat) (h : c < 0xD800 ∨ (0xDFFF < c ∧ c < 0x110000)) :
    processBytes initDec (encodeCp c) = (initDec, [c]) := by
  rcases le_or_lt c 0x7F with hc | hc
  · exact decode_enc1 c hc
  rcases le_or_lt c 0x7FF with hc2 | hc2
  · exact decode_enc2 c (by omega) hc2
  rcases le_or_lt c 0xFFFF with hc3 | hc3
  · exact decode_enc3 c (by omega) hc3 (by omega)
  · exact decode_enc4 c (by omega) (by omega)

/-- Round trip for a list of valid scalar values. -/
theorem decode_encodeCps (l : List Nat)
    (h : ∀ c ∈ l, c < 0xD800 ∨ (0xDFFF < c ∧ c < 0x110000)) :
    processBytes initDec (encodeCps l) = (initDec, l) := by
  induction l with
  | nil => simp [encodeCps, processBytes]
  | cons c rest ih =>
    have hc := h c (List.mem_cons_self c rest)
    have hr : ∀ x ∈ rest, x < 0xD800 ∨ (0xDFFF < x ∧ x < 0x110000) :=
      fun x hx => h x (List.mem_cons_of_mem c hx)
    simp only [encodeCps, List.map_cons, List.flatten_cons]
    rw [processBytes_append, decode_encodeCp c hc]
    have ihr := ih hr
    simp only [encodeCps] at ihr
    simp [ihr]

theorem char_scalar (c : Char) : c.toNat < 0xD800 ∨ (0xDFFF < c.toNat ∧ c.toNat < 0x110000) := by
  have h := c.valid
  rcases h with h | h
  · exact Or.inl h
  · exact Or.inr h

/-- Round trip at the string level: decoding the UTF-8 encoding of `t`
from the initial state yields exactly `t` and returns the decoder to the
initial state. -/
theorem decode_utf8Encode (t : String) :
    processBytes initDec (utf8Encode t) = (initDec, t.data.map Char.toNat) := by
  apply decode_encodeCps
  intro c hc
  rcases List.mem_map.mp hc with ⟨ch, _, rfl⟩
  exact char_scalar ch

theorem toStr_data_map (t : String) : toStr (t.data.map Char.toNat) = t := by
  apply String.ext
  simp [toStr, List.map_map]
  have : (Char.ofNat ∘ Char.toNat) = id := by
    funext c
    exact Char.ofNat_toNat c
  simp [this]

/-- The total decoded text equals the source text whenever the flattened
byte stream is the UTF-8 encoding of that text, for EVERY chunking. -/
theorem streamOut_encode (chunks : List (List Nat)) (t : String)
    (h : chunks.flatten = utf8Encode t) :
    streamOut initDec chunks = t := by
  rw [streamOut_flatten, h, decode_utf8Encode]
  exact toStr_data_map t

/-! ## Submission lemmas -/

theorem foldl_incrementEvents (d : Dec) (acc : String) (chs : List (List Nat))
    (s : ChatState) (M : List Turn) (hM : s.messages = M ++ [Turn.mk "assistant" acc]) :
    (incrementEvents d acc chs).foldl applyEvent s =
      { s with messages := M ++ [Turn.mk "assistant" (acc ++ streamOut d chs)] } := by
  induction chs generalizing d acc s with
  | nil =>
    simp only [incrementEvents, List.foldl_nil, streamOut]
    cases s
    simp_all
  | cons ch rest ih =>
    simp only [incrementEvents, List.foldl_cons, streamOut]
    have hstep : applyEvent s
        (.updateLastMessage (Turn.mk "assistant" (acc ++ (decodeChunk d ch).2))) =
        { s with messages := M ++ [Turn.mk "assistant" (acc ++ (decodeChunk d ch).2)] } := by
      simp [applyEvent, hM]
    rw [hstep, ih (decodeChunk d ch).1 (acc ++ (decodeChunk d ch).2) _ (by simp)]
    simp [String.append_assoc]

theorem foldl_catchEvents (msg : String) (s : ChatState) :
    (catchEvents msg).foldl applyEvent s =
      { s with error := msg, messages := s.messages.filter (fun m => m.content != "") } := by
  simp [catchEvents, applyEvent]

/-- Folding the shared submission events: the header sets up the state,
the branch runs on it, and `finally` clears the loading flag. -/
theorem foldl_mainEvents (req : ChatRequest) (um : String) (fr : FetchResult) (s : ChatState) :
    (mainEvents req um fr).foldl applyEvent s =
      { (branchEvents fr).foldl applyEvent
          { s with error := "", isLoading := true,
                   messages := s.messages ++ [Turn.mk "user" um] } with
        isLoading := false } := by
  simp [mainEvents, List.foldl_append, applyEvent]

theorem foldl_streamEvents_clean (chunks : List (List Nat)) (s : ChatState) :
    (streamEvents (some (StreamBody.mk chunks none))).foldl applyEvent s =
      { s with
          messages := s.messages ++ [Turn.mk "assistant" (streamOut initDec chunks)],
          userMessage := "" } := by
  have h0 : streamEvents (some (StreamBody.mk chunks none)) =
      Event.appendMessage (Turn.mk "assistant" "") ::
        (incrementEvents initDec "" chunks ++ [Event.setUserMessage ""]) := rfl
  have h1 : applyEvent s (Event.appendMessage (Turn.mk "assistant" "")) =
      { s with messages := s.messages ++ [Turn.mk "assistant" ""] } := by
    simp [applyEvent]
  rw [h0, List.foldl_cons, h1, List.foldl_append]
  rw [foldl_incrementEvents initDec "" chunks _ s.messages (by simp)]
  simp [applyEvent]

theorem foldl_streamEvents_err (chunks : List (List Nat)) (e : JsError) (s : ChatState) :
    (streamEvents (some (StreamBody.mk chunks (some e)))).foldl applyEvent s =
      { s with
          messages := (s.messages ++
            [Turn.mk "assistant" (streamOut initDec chunks)]).filter (fun m => m.content != ""),
          error := surfaceMsg e } := by
  have h0 : streamEvents (some (StreamBody.mk chunks (some e))) =
      Event.appendMessage (Turn.mk "assistant" "") ::
        (incrementEvents initDec "" chunks ++ catchEvents (surfaceMsg e)) := rfl
  have h1 : applyEvent s (Event.appendMessage (Turn.mk "assistant" "")) =
      { s with messages := s.messages ++ [Turn.mk "assistant" ""] } := by
    simp [applyEvent]
  rw [h0, List.foldl_cons, h1, List.foldl_append]
  rw [foldl_incrementEvents initDec "" chunks _ s.messages (by simp)]
  rw [foldl_catchEvents]
  simp

/-- Final state of a submission whose response is 2xx with a body and a
clean end of stream. -/
theorem runSubmit_clean (s : ChatState) (status : Nat) (chunks : List (List Nat))
    (h1 : isBlank s.userMessage = false) (h2 : okStatus status) :
    runSubmit s (.response status (some (StreamBody.mk chunks none))) =
      { s with
          messages := s.messages ++ [Turn.mk "user" s.userMessage,
            Turn.mk "assistant" (streamOut initDec chunks)],
          error := "", isLoading := false, userMessage := "" } := by
  rw [runSubmit, submitEvents, if_neg (by simp [h1]), foldl_mainEvents]
  have hb : branchEvents (.response status (some (StreamBody.mk chunks none))) =
      streamEvents (some (StreamBody.mk chunks none)) := by
    simp [branchEvents, h2]
  rw [hb, foldl_streamEvents_clean]
  simp

/-- Final state of a submission whose response is 2xx with a body whose
read fails after the listed chunks. -/
theorem runSubmit_readError (s : ChatState) (status : Nat) (chunks : List (List Nat))
    (e : JsError) (h1 : isBlank s.userMessage = false) (h2 : okStatus status) :
    runSubmit s (.response status (some (StreamBody.mk chunks (some e)))) =
      { s with
          messages := (s.messages ++ [Turn.mk "user" s.userMessage,
            Turn.mk "assistant" (streamOut initDec chunks)]).filter
              (fun m => m.content != ""),
          error := surfaceMsg e, isLoading := false } := by
  rw [runSubmit, submitEvents, if_neg (by simp [h1]), foldl_mainEvents]
  have hb : branchEvents (.response status (some (StreamBody.mk chunks (some e)))) =
      streamEvents (some (StreamBody.mk chunks (some e))) := by
    simp [branchEvents, h2]
  rw [hb, foldl_streamEvents_err]
  simp

/-- Final state of a submission whose response status is not 2xx. -/
theorem runSubmit_httpError (s : ChatState) (status : Nat) (body : Option StreamBody)
    (h1 : isBlank s.userMessage = false) (h2 : ¬ okStatus status) :
    runSubmit s (.response status body) =
      { s with
          messages := (s.messages ++ [Turn.mk "user" s.userMessage]).filter
            (fun m => m.content != ""),
          error := "API error: " ++ toString status, isLoading := false } := by
  rw [runSubmit, submitEvents, if_neg (by simp [h1]), foldl_mainEvents]
  have hb : branchEvents (.response status body) =
      catchEvents ("API error: " ++ toString status) := by
    simp [branchEvents, h2]
  rw [hb, foldl_catchEvents]

/-! ## Event census lemmas -/

/-- Is the event an append of a user turn? -/
def isUserAppend : Event → Bool
  | .appendMessage t => t.role == "user"
  | _ => false

/-- Is the event a network call? -/
def isFetch : Event → Bool
  | .fetchCall _ => true
  | _ => false

/-- Is the event any append? -/
def isAppend : Event → Bool
  | .appendMessage _ => true
  | _ => false

/-- Is the event a write to the loading flag? -/
def isSetLoading : Event → Bool
  | .setLoading _ => true
  | _ => false

/-- Is the event the surfacing of a non-empty error message? -/
def isErrorSurface : Event → Bool
  | .setError m => m != ""
  | _ => false

theorem mem_incrementEvents (d : Dec) (acc : String) (chs : List (List Nat)) (e : Event)
    (he : e ∈ incrementEvents d acc chs) :
    ∃ t, e = .updateLastMessage t ∧ t.role = "assistant" := by
  induction chs generalizing d acc with
  | nil => simp [incrementEvents] at he
  | cons ch rest ih =>
    simp only [incrementEvents, List.mem_cons] at he
    rcases he with he | he
    · exact ⟨_, he, rfl⟩
    · exact ih _ _ he

theorem incES_countP_eq_zero (d : Dec) (acc : String) (chs : List (List Nat))
    (p : Event → Bool) (hp : ∀ t, p (.updateLastMessage t) = false) :
    (incrementEvents d acc chs).countP p = 0 := by
  rw [List.countP_eq_zero]
  intro e he
  obtain ⟨t, rfl, _⟩ := mem_incrementEvents d acc chs e he
  simp [hp]

theorem branch_countP_eq_zero (fr : FetchResult) (p : Event → Bool)
    (hp1 : ∀ t, p (.updateLastMessage t) = false)
    (hp2 : ∀ m, p (.setError m) = false)
    (hp3 : p .filterEmpty = false)
    (hp4 : p (.appendMessage (Turn.mk "assistant" "")) = false)
    (hp5 : ∀ m, p (.setUserMessage m) = false) :
    (branchEvents fr).countP p = 0 := by
  match fr with
  | .netError e => simp [branchEvents, catchEvents, List.countP_cons, hp2, hp3]
  | .response status body =>
    by_cases h : okStatus status
    · rw [branchEvents, if_pos h]
      match body with
      | none => simp [streamEvents, catchEvents, List.countP_cons, hp2, hp3]
      | some sb =>
        match sb with
        | ⟨chunks, readError⟩ =>
          simp only [streamEvents, List.countP_cons, List.countP_append, hp4,
            incES_countP_eq_zero initDec "" chunks p hp1]
          match readError with
          | none => simp [List.countP_cons, hp5, incES_countP_eq_zero _ _ _ p hp1]
          | some e => simp [catchEvents, List.countP_cons, hp2, hp3,
              incES_countP_eq_zero _ _ _ p hp1]
    · rw [branchEvents, if_neg h]
      simp [catchEvents, List.countP_cons, hp2, hp3]

theorem branch_no_setLoading (fr : FetchResult) (e : Event) (he : e ∈ branchEvents fr) :
    isSetLoading e = false := by
  have h := branch_countP_eq_zero fr isSetLoading
    (by intro t; rfl) (by intro m; rfl) rfl rfl (by intro m; rfl)
  rw [List.countP_eq_zero] at h
  simpa using h e he

theorem foldl_isLoading_const (l : List Event) (s : ChatState)
    (h : ∀ e ∈ l, isSetLoading e = false) :
    (l.foldl applyEvent s).isLoading = s.isLoading := by
  induction l generalizing s with
  | nil => rfl
  | cons e rest ih =>
    have he : isSetLoading e = false := h e (List.mem_cons_self e rest)
    have hr : ∀ x ∈ rest, isSetLoading x = false :=
      fun x hx => h x (List.mem_cons_of_mem e hx)
    rw [List.foldl_cons, ih _ hr]
    cases e <;> simp_all [applyEvent, isSetLoading]

theorem foldl_messages_nil (l : List Event) (s : ChatState)
    (hs : s.messages = []) (h : ∀ e ∈ l, isAppend e = false) :
    (l.foldl applyEvent s).messages = [] := by
  induction l generalizing s with
  | nil => exact hs
  | cons e rest ih =>
    have he : isAppend e = false := h e (List.mem_cons_self e rest)
    have hr : ∀ x ∈ rest, isAppend x = false :=
      fun x hx => h x (List.mem_cons_of_mem e hx)
    rw [List.foldl_cons]
    apply ih _ _ hr
    cases e <;> simp_all [applyEvent, isAppend, hs]

/-- Splitting a decomposition around an element absent from the left part. -/
theorem split_notin_left {α : Type} (l1 : List α) {l2 pre post : List α} {a : α}
    (h : l1 ++ l2 = pre ++ a :: post) (ha : a ∉ l1) :
    ∃ pre2, pre = l1 ++ pre2 ∧ l2 = pre2 ++ a :: post := by
  induction l1 generalizing pre with
  | nil => exact ⟨pre, by simp, by simpa using h⟩
  | cons x xs ih =>
    match pre, h with
    | [], h =>
      simp only [List.nil_append, List.cons_append, List.cons.injEq] at h
      exact absurd (h.1 ▸ List.mem_cons_self x xs) ha
    | y :: pre1, h =>
      simp only [List.cons_append, List.cons.injEq] at h
      obtain ⟨rfl, h2⟩ := h
      obtain ⟨pre2, rfl, hl2⟩ := ih h2 (fun hm => ha (List.mem_cons_of_mem x hm))
      exact ⟨pre2, rfl, hl2⟩

/-- Splitting a decomposition around an element absent from the right part. -/
theorem split_notin_right {α : Type} {l1 : List α} (l2 : List α) {pre post : List α} {a : α}
    (h : l1 ++ l2 = pre ++ a :: post) (ha : a ∉ l2) :
    ∃ post1, post = post1 ++ l2 ∧ l1 = pre ++ a :: post1 := by
  induction l1 generalizing pre with
  | nil =>
    simp only [List.nil_append] at h
    exact absurd (h ▸ List.mem_append.mpr (Or.inr (List.mem_cons_self a post))) ha
  | cons x xs ih =>
    match pre, h with
    | [], h =>
      simp only [List.cons_append, List.nil_append, List.cons.injEq] at h
      obtain ⟨rfl, h2⟩ := h
      match xs, post, h2 with
      | xs, post, h2 =>
        cases h2
        exact ⟨xs, rfl, rfl⟩
    | y :: pre1, h =>
      simp only [List.cons_append, List.cons.injEq] at h
      obtain ⟨rfl, h2⟩ := h
      obtain ⟨post1, rfl, hxs⟩ := ih h2
      exact ⟨post1, rfl, by rw [hxs]; rfl⟩

/-! ## Small helpers for the claims -/

theorem isBlank_false_ne (s : String) (h : isBlank s = false) : s ≠ "" := by
  intro he
  subst he
  simp [isBlank] at h

theorem apiError_ne_empty (status : Nat) : ("API error: " ++ toString status) ≠ "" := by
  intro h
  have hd := congrArg String.data h
  rw [String.data_append] at hd
  have h1 := (List.append_eq_nil.mp hd).1
  exact absurd h1 (by decide)

theorem update_dropLast (s : ChatState) (t : Turn) :
    (applyEvent s (.updateLastMessage t)).messages.dropLast = s.messages.dropLast := by
  by_cases h : s.messages.isEmpty
  · simp [applyEvent, h]
  · simp [applyEvent, h, List.dropLast_concat]

/-- The initial page state with a typed message, used to witness the
claims on concrete inputs. -/
def exInit : ChatState :=
  { messages := [], isLoading := false, error := "", userMessage := "Hi",
    developerMessage := "", model := "gpt-4.1-mini", apiKey := "" }

/-! ## Claims -/

/-- C9: a submission whose `userMessage` is empty after trimming is
rejected with the user-visible validation error, performs no state change
other than setting that error, and issues no network call. -/
theorem blank_message_rejected_locally (s : ChatState) (fr : FetchResult)
    (h : isBlank s.userMessage = true) :
    submitEvents s fr = [.setError "Please enter a message"] ∧
    (runSubmit s fr).messages = s.messages ∧
    (runSubmit s fr).error = "Please enter a message" ∧
    (submitEvents s fr).countP isFetch = 0 := by
  have he : submitEvents s fr = [.setError "Please enter a message"] := by
    simp [submitEvents, h]
  refine ⟨he, ?_, ?_, ?_⟩ <;>
    simp [runSubmit, he, applyEvent, List.countP_cons, isFetch]

theorem blank_message_rejected_locally_witness :
    submitEvents { exInit with userMessage := "   " } (.response 200 none) =
      [.setError "Please enter a message"] ∧
    (runSubmit { exInit with userMessage := "   " } (.response 200 none)).messages =
      { exInit with userMessage := "   " }.messages ∧
    (runSubmit { exInit with userMessage := "   " } (.response 200 none)).error =
      "Please enter a message" ∧
    (submitEvents { exInit with userMessage := "   " } (.response 200 none)).countP isFetch = 0 :=
  blank_message_rejected_locally { exInit with userMessage := "   " } (.response 200 none)
    (by decide)

/-- C2: a submission whose response status is not 2xx before any stream
bytes fails with the `ApiError` message carrying the status code, adds no
assistant turn (and, from a state without assistant or empty turns,
leaves the history as it was plus the user turn), resets the loading
flag, and surfaces exactly one non-empty error message. -/
theorem pre_stream_http_error_clean_failure (s : ChatState) (status : Nat)
    (body : Option StreamBody)
    (h1 : isBlank s.userMessage = false) (h2 : ¬ okStatus status)
    (h3 : ∀ t ∈ s.messages, t.role ≠ "assistant")
    (h4 : ∀ t ∈ s.messages, t.content ≠ "") :
    (runSubmit s (.response status body)).error = "API error: " ++ toString status ∧
    (runSubmit s (.response status body)).messages =
      s.messages ++ [Turn.mk "user" s.userMessage] ∧
    (∀ t ∈ (runSubmit s (.response status body)).messages, t.role ≠ "assistant") ∧
    (runSubmit s (.response status body)).isLoading = false ∧
    (submitEvents s (.response status body)).countP isErrorSurface = 1 := by
  have hrun := runSubmit_httpError s status body h1 h2
  have hfil : (s.messages ++ [Turn.mk "user" s.userMessage]).filter
      (fun m => m.content != "") = s.messages ++ [Turn.mk "user" s.userMessage] := by
    rw [List.filter_eq_self]
    intro t ht
    rcases List.mem_append.mp ht with ht | ht
    · simpa using h4 t ht
    · simp only [List.mem_singleton] at ht
      subst ht
      simpa using isBlank_false_ne s.userMessage h1
  refine ⟨by rw [hrun], by rw [hrun]; exact hfil, ?_, by rw [hrun], ?_⟩
  · rw [hrun]
    intro t ht
    rw [hfil] at ht
    rcases List.mem_append.mp ht with ht | ht
    · exact h3 t ht
    · simp only [List.mem_singleton] at ht
      subst ht
      simp
  · have hne : (("API error: " ++ toString status) != "") = true := by
      rw [bne_iff_ne]
      exact apiError_ne_empty status
    simp [submitEvents, h1, mainEvents, branchEvents, h2, catchEvents,
      List.countP_append, List.countP_cons, isErrorSurface, hne]

theorem pre_stream_http_error_clean_failure_witness :
    (runSubmit exInit (.response 500 none)).error = "API error: " ++ toString 500 ∧
    (runSubmit exInit (.response 500 none)).messages =
      exInit.messages ++ [Turn.mk "user" exInit.userMessage] ∧
    (∀ t ∈ (runSubmit exInit (.response 500 none)).messages, t.role ≠ "assistant") ∧
    (runSubmit exInit (.response 500 none)).isLoading = false ∧
    (submitEvents exInit (.response 500 none)).countP isErrorSurface = 1 :=
  pre_stream_http_error_clean_failure exInit 500 none (by decide) (by decide)
    (by decide) (by decide)

/-- C10: the error recovery step filters the WHOLE message list by
non-empty content: the final history is exactly the previous history plus
the user turn with every empty-content turn removed, wherever it sits,
and every non-empty turn survives. -/
theorem error_recovery_filters_empty_turns (s : ChatState) (status : Nat)
    (body : Option StreamBody)
    (h1 : isBlank s.userMessage = false) (h2 : ¬ okStatus status) :
    (runSubmit s (.response status body)).messages =
      (s.messages ++ [Turn.mk "user" s.userMessage]).filter (fun m => m.content != "") ∧
    ∀ t ∈ s.messages, t.content ≠ "" → t ∈ (runSubmit s (.response status body)).messages := by
  have hrun := runSubmit_httpError s status body h1 h2
  refine ⟨by rw [hrun], ?_⟩
  intro t ht hc
  rw [hrun]
  refine List.mem_filter.mpr ⟨List.mem_append_left _ ht, by simpa using hc⟩

/-- State after a first submission that streamed zero chunks and ended
cleanly (its placeholder assistant turn is finalized with empty content),
with a new message typed. -/
def exAfterFirst : ChatState :=
  { runSubmit exInit (.response 200 (some (StreamBody.mk [] none))) with
    userMessage := "Again" }

theorem error_recovery_filters_empty_turns_witness :
    ((runSubmit exAfterFirst (.response 500 none)).messages =
      (exAfterFirst.messages ++ [Turn.mk "user" exAfterFirst.userMessage]).filter
        (fun m => m.content != "") ∧
     ∀ t ∈ exAfterFirst.messages, t.content ≠ "" →
       t ∈ (runSubmit exAfterFirst (.response 500 none)).messages) ∧
    exAfterFirst.messages = [Turn.mk "user" "Hi", Turn.mk "assistant" ""] ∧
    (runSubmit exAfterFirst (.response 500 none)).messages =
      [Turn.mk "user" "Hi", Turn.mk "user" "Again"] :=
  ⟨error_recovery_filters_empty_turns exAfterFirst 500 none (by decide) (by decide),
    by decide, by decide⟩

/-- C3: when the stream read fails after the chunks carrying the
increments `incs` were applied, the assistant turn keeps exactly the
concatenation of those increments (no rollback), empty-content turns are
removed, the error is surfaced, and loading stops. -/
theorem mid_stream_error_no_rollback (s : ChatState) (status : Nat)
    (chunks : List (List Nat)) (e : JsError) (incs : List String)
    (h1 : isBlank s.userMessage = false) (h2 : okStatus status)
    (h3 : chunks.flatten = utf8Encode (String.join incs)) :
    (runSubmit s (.response status (some (StreamBody.mk chunks (some e))))).messages =
      (s.messages ++ [Turn.mk "user" s.userMessage,
        Turn.mk "assistant" (String.join incs)]).filter (fun m => m.content != "") ∧
    (runSubmit s (.response status (some (StreamBody.mk chunks (some e))))).error =
      surfaceMsg e ∧
    (runSubmit s (.response status (some (StreamBody.mk chunks (some e))))).isLoading = false ∧
    (String.join incs ≠ "" →
      (runSubmit s (.response status (some (StreamBody.mk chunks (some e))))).messages.getLast?
        = some (Turn.mk "assistant" (String.join incs))) := by
  have hrun := runSubmit_readError s status chunks e h1 h2
  rw [streamOut_encode chunks _ h3] at hrun
  refine ⟨by rw [hrun], by rw [hrun], by rw [hrun], ?_⟩
  intro hne
  rw [hrun]
  have hsplit : s.messages ++ [Turn.mk "user" s.userMessage,
      Turn.mk "assistant" (String.join incs)] =
      (s.messages ++ [Turn.mk "user" s.userMessage]) ++
        [Turn.mk "assistant" (String.join incs)] := by simp
  rw [hsplit, List.filter_append]
  have hkeep : List.filter (fun m => m.content != "")
      [Turn.mk "assistant" (String.join incs)] =
      [Turn.mk "assistant" (String.join incs)] := by
    have : (String.join incs != "") = true := by rwa [bne_iff_ne]
    simp [List.filter, this]
  rw [hkeep, List.getLast?_concat]

theorem mid_stream_error_no_rollback_witness :
    (runSubmit exInit (.response 200 (some (StreamBody.mk [[104]]
      (some (.error "network error")))))).messages =
      (exInit.messages ++ [Turn.mk "user" exInit.userMessage,
        Turn.mk "assistant" (String.join ["h"])]).filter (fun m => m.content != "") ∧
    (runSubmit exInit (.response 200 (some (StreamBody.mk [[104]]
      (some (.error "network error")))))).error = surfaceMsg (.error "network error") ∧
    (runSubmit exInit (.response 200 (some (StreamBody.mk [[104]]
      (some (.error "network error")))))).isLoading = false ∧
    (String.join ["h"] ≠ "" →
      (runSubmit exInit (.response 200 (some (StreamBody.mk [[104]]
        (some (.error "network error")))))).messages.getLast? =
        some (Turn.mk "assistant" (String.join ["h"]))) :=
  mid_stream_error_no_rollback exInit 200 [[104]] (.error "network error") ["h"]
    (by decide) (by decide) (by decide)

/-- C1: for every sequence of text increments and every chunking of their
bytes at the transport level, a submission whose stream ends cleanly
finalizes the assistant turn with exactly the concatenation of the
increments. -/
theorem stream_concat_final_turn (s : ChatState) (status : Nat)
    (chunks : List (List Nat)) (incs : List String)
    (h1 : isBlank s.userMessage = false) (h2 : okStatus status)
    (h3 : chunks.flatten = utf8Encode (String.join incs)) :
    (runSubmit s (.response status (some (StreamBody.mk chunks none)))).messages =
      s.messages ++ [Turn.mk "user" s.userMessage,
        Turn.mk "assistant" (String.join incs)] ∧
    (runSubmit s (.response status (some (StreamBody.mk chunks none)))).messages.getLast?
      = some (Turn.mk "assistant" (String.join incs)) := by
  have hrun := runSubmit_clean s status chunks h1 h2
  rw [streamOut_encode chunks _ h3] at hrun
  refine ⟨by rw [hrun], ?_⟩
  rw [hrun]
  have hsplit : s.messages ++ [Turn.mk "user" s.userMessage,
      Turn.mk "assistant" (String.join incs)] =
      (s.messages ++ [Turn.mk "user" s.userMessage]) ++
        [Turn.mk "assistant" (String.join incs)] := by simp
  simp only [hsplit]
  rw [List.getLast?_concat]

theorem stream_concat_final_turn_witness :
    (runSubmit exInit (.response 200 (some (StreamBody.mk [[104], [105]] none)))).messages =
      exInit.messages ++ [Turn.mk "user" exInit.userMessage,
        Turn.mk "assistant" (String.join ["h", "i"])] ∧
    (runSubmit exInit (.response 200 (some (StreamBody.mk [[104], [105]] none)))).messages.getLast?
      = some (Turn.mk "assistant" (String.join ["h", "i"])) :=
  stream_concat_final_turn exInit 200 [[104], [105]] ["h", "i"]
    (by decide) (by decide) (by decide)

/-- C4: a multi-byte character whose UTF-8 bytes are split across two
increments decodes to the correct character in the assistant turn once
both increments are applied, because the decoder is stateful across
increments. -/
theorem split_multibyte_char_decodes (s : ChatState) (status : Nat) (c : Char) (k : Nat)
    (h1 : isBlank s.userMessage = false) (h2 : okStatus status)
    (h3 : 0 < k) (h4 : k < (encodeCp c.toNat).length) :
    (runSubmit s (.response status (some (StreamBody.mk
      [(encodeCp c.toNat).take k, (encodeCp c.toNat).drop k] none)))).messages.getLast?
      = some (Turn.mk "assistant" (String.mk [c])) := by
  have hf : ([(encodeCp c.toNat).take k, (encodeCp c.toNat).drop k] :
      List (List Nat)).flatten = utf8Encode (String.mk [c]) := by
    simp [utf8Encode, encodeCps]
  have hrun := runSubmit_clean s status
    [(encodeCp c.toNat).take k, (encodeCp c.toNat).drop k] h1 h2
  rw [streamOut_encode _ _ hf] at hrun
  rw [hrun]
  have hsplit : s.messages ++ [Turn.mk "user" s.userMessage,
      Turn.mk "assistant" (String.mk [c])] =
      (s.messages ++ [Turn.mk "user" s.userMessage]) ++
        [Turn.mk "assistant" (String.mk [c])] := by simp
  simp only [hsplit]
  rw [List.getLast?_concat]

theorem split_multibyte_char_decodes_witness :
    0 < 1 ∧ 1 < (encodeCp ('é').toNat).length ∧
    (runSubmit exInit (.response 200 (some (StreamBody.mk
      [(encodeCp ('é').toNat).take 1, (encodeCp ('é').toNat).drop 1] none)))).messages.getLast?
      = some (Turn.mk "assistant" (String.mk ['é'])) :=
  ⟨by decide, by decide,
    split_multibyte_char_decodes exInit 200 'é' 1 (by decide) (by decide)
      (by decide) (by decide)⟩

/-- On a 2xx response with a body, the event sequence is exactly the four
header events and the placeholder append, followed by the rest. -/
theorem submitEvents_structure (s : ChatState) (status : Nat) (sb : StreamBody)
    (h1 : isBlank s.userMessage = false) (h2 : okStatus status) :
    submitEvents s (.response status (some sb)) =
      ([.setError "", .setLoading true, .appendMessage (Turn.mk "user" s.userMessage),
        .fetchCall (buildRequest s), .appendMessage (Turn.mk "assistant" "")] : List Event) ++
      (incrementEvents initDec "" sb.chunks ++
        ((match sb.readError with
          | some e => catchEvents (surfaceMsg e)
          | none => [.setUserMessage ""]) ++ [.setLoading false])) := by
  rw [submitEvents, if_neg (by simp [h1]), mainEvents, branchEvents, if_pos h2, streamEvents]
  simp

/-- After the header and the placeholder, no event of the submission ever
appends a message again. -/
theorem drop5_no_append (s : ChatState) (status : Nat) (sb : StreamBody)
    (h1 : isBlank s.userMessage = false) (h2 : okStatus status) :
    ∀ e ∈ (submitEvents s (.response status (some sb))).drop 5, isAppend e = false := by
  intro e he
  rw [submitEvents_structure s status sb h1 h2] at he
  rw [List.drop_left' (by rfl)] at he
  rcases List.mem_append.mp he with he | he
  · obtain ⟨t, rfl, _⟩ := mem_incrementEvents _ _ _ _ he
    rfl
  · rcases List.mem_append.mp he with he | he
    · match sb.readError, he with
      | some err, he =>
        simp only [catchEvents, List.mem_cons, List.mem_singleton, List.not_mem_nil,
          or_false] at he
        rcases he with rfl | rfl <;> rfl
      | none, he =>
        simp only [List.mem_singleton] at he
        subst he
        rfl
    · simp only [List.mem_singleton] at he
      subst he
      rfl

/-- C7: an empty placeholder assistant turn is appended immediately after
the user turn and the network call, before any increment is applied, and
nothing is ever appended after it during the submission, so every
increment has an existing append target. -/
theorem placeholder_before_increments (s : ChatState) (status : Nat) (sb : StreamBody)
    (h1 : isBlank s.userMessage = false) (h2 : okStatus status) :
    (submitEvents s (.response status (some sb))).take 5 =
      [.setError "", .setLoading true, .appendMessage (Turn.mk "user" s.userMessage),
       .fetchCall (buildRequest s), .appendMessage (Turn.mk "assistant" "")] ∧
    (((submitEvents s (.response status (some sb))).take 5).foldl applyEvent s).messages =
      s.messages ++ [Turn.mk "user" s.userMessage, Turn.mk "assistant" ""] ∧
    (∀ e ∈ (submitEvents s (.response status (some sb))).drop 5, isAppend e = false) := by
  have hst := submitEvents_structure s status sb h1 h2
  have htake : (submitEvents s (.response status (some sb))).take 5 =
      [.setError "", .setLoading true, .appendMessage (Turn.mk "user" s.userMessage),
       .fetchCall (buildRequest s), .appendMessage (Turn.mk "assistant" "")] := by
    rw [hst, List.take_left' (by rfl)]
  refine ⟨htake, ?_, drop5_no_append s status sb h1 h2⟩
  rw [htake]
  simp [applyEvent]

theorem placeholder_before_increments_witness :
    (submitEvents exInit (.response 200 (some (StreamBody.mk [[104]] none)))).take 5 =
      [.setError "", .setLoading true, .appendMessage (Turn.mk "user" exInit.userMessage),
       .fetchCall (buildRequest exInit), .appendMessage (Turn.mk "assistant" "")] ∧
    (((submitEvents exInit (.response 200 (some (StreamBody.mk [[104]] none)))).take 5).foldl
        applyEvent exInit).messages =
      exInit.messages ++ [Turn.mk "user" exInit.userMessage, Turn.mk "assistant" ""] ∧
    (∀ e ∈ (submitEvents exInit (.response 200 (some (StreamBody.mk [[104]] none)))).drop 5,
      isAppend e = false) :=
  placeholder_before_increments exInit 200 (StreamBody.mk [[104]] none) (by decide) (by decide)

/-- C5: clearing the chat at any point once the stream is active (any
suspension point from the placeholder append on, i.e. any position `k ≥ 5`
in the submission's event sequence) empties the turn list, and every
mutation the orphaned stream subsequently performs leaves the turn list
empty: no increment ever reappears as a turn. -/
theorem clear_during_stream_no_resurrection (s : ChatState) (status : Nat) (sb : StreamBody)
    (k m : Nat) (h1 : isBlank s.userMessage = false) (h2 : okStatus status) (h3 : 5 ≤ k) :
    ((((submitEvents s (.response status (some sb))).take k) ++ clearEvents).foldl
        applyEvent s).messages = [] ∧
    ((((submitEvents s (.response status (some sb))).take k) ++ clearEvents ++
        (((submitEvents s (.response status (some sb))).drop k).take m)).foldl
        applyEvent s).messages = [] := by
  have hclear : ∀ s1 : ChatState, ((clearEvents.foldl applyEvent s1)).messages = [] := by
    intro s1
    simp [clearEvents, applyEvent]
  have hfirst : ((((submitEvents s (.response status (some sb))).take k) ++
      clearEvents).foldl applyEvent s).messages = [] := by
    rw [List.foldl_append]
    exact hclear _
  refine ⟨hfirst, ?_⟩
  rw [List.foldl_append]
  apply foldl_messages_nil
  · exact hfirst
  · intro e he
    have he2 : e ∈ (submitEvents s (.response status (some sb))).drop k :=
      List.mem_of_mem_take he
    have hk : (submitEvents s (.response status (some sb))).drop k =
        ((submitEvents s (.response status (some sb))).drop 5).drop (k - 5) := by
      rw [List.drop_drop]
      congr 1
      omega
    rw [hk] at he2
    exact drop5_no_append s status sb h1 h2 e (List.mem_of_mem_drop he2)

theorem clear_during_stream_no_resurrection_witness :
    ((((submitEvents exInit (.response 200 (some (StreamBody.mk [[104], [105]] none)))).take 6)
        ++ clearEvents).foldl applyEvent exInit).messages = [] ∧
    ((((submitEvents exInit (.response 200 (some (StreamBody.mk [[104], [105]] none)))).take 6)
        ++ clearEvents ++
        (((submitEvents exInit (.response 200 (some (StreamBody.mk [[104], [105]] none)))).drop 6).take 3)).foldl
        applyEvent exInit).messages = [] :=
  clear_during_stream_no_resurrection exInit 200 (StreamBody.mk [[104], [105]] none) 6 3
    (by decide) (by decide) (by decide)

/-- A state with a non-blank message but a blank API key, for the keyed
variant. -/
def exNoKey : ChatState :=
  { messages := [], isLoading := false, error := "", userMessage := "Hello",
    developerMessage := "", model := "gpt-4.1-mini", apiKey := "" }

/-- C8 counterexample: in the keyed variant (`src/frontend/app/page.tsx`),
a submission with a non-blank `userMessage` but a blank API key appends
NO user turn (and makes no network call), so "for every non-blank
userMessage, submission appends exactly one user turn" is false on the
code as a whole. -/
theorem missing_key_no_user_turn_cex :
    isBlank exNoKey.userMessage = false ∧
    (submitEventsKeyed exNoKey (.response 200 none)).countP isUserAppend = 0 ∧
    ¬ (submitEventsKeyed exNoKey (.response 200 none)).countP isUserAppend = 1 := by
  decide

/-- C8 amended: with a non-blank `userMessage`, the no-key variant always
appends exactly one user turn, directly before its single network call
and never after it; the keyed variant does the same provided the API key
is non-blank, and with a blank API key it stops at the key validation
error, appending nothing and calling nothing. -/
theorem user_turn_before_fetch (s : ChatState) (fr : FetchResult)
    (h1 : isBlank s.userMessage = false) :
    ((submitEvents s fr).take 4 =
      [.setError "", .setLoading true, .appendMessage (Turn.mk "user" s.userMessage),
       .fetchCall (buildRequest s)] ∧
     ((submitEvents s fr).drop 4).countP isUserAppend = 0 ∧
     ((submitEvents s fr).drop 4).countP isFetch = 0) ∧
    (isBlank s.apiKey = false →
      (submitEventsKeyed s fr).take 4 =
        [.setError "", .setLoading true, .appendMessage (Turn.mk "user" s.userMessage),
         .fetchCall (buildRequestKeyed s)] ∧
      ((submitEventsKeyed s fr).drop 4).countP isUserAppend = 0 ∧
      ((submitEventsKeyed s fr).drop 4).countP isFetch = 0) ∧
    (isBlank s.apiKey = true →
      submitEventsKeyed s fr = [.setError "Please provide an API key"]) := by
  have hua := branch_countP_eq_zero fr isUserAppend
    (by intro t; rfl) (by intro m; rfl) rfl (by decide) (by intro m; rfl)
  have hfe := branch_countP_eq_zero fr isFetch
    (by intro t; rfl) (by intro m; rfl) rfl rfl (by intro m; rfl)
  have hmain : ∀ req, (mainEvents req s.userMessage fr).take 4 =
      ([.setError "", .setLoading true, .appendMessage (Turn.mk "user" s.userMessage),
        .fetchCall req] : List Event) := by
    intro req
    rw [mainEvents, List.append_assoc, List.take_left' (by rfl)]
  have hdropa : ∀ req, ((mainEvents req s.userMessage fr).drop 4).countP isUserAppend = 0 := by
    intro req
    rw [mainEvents, List.append_assoc, List.drop_left' (by rfl)]
    simp [List.countP_append, List.countP_cons, hua, isUserAppend]
  have hdropf : ∀ req, ((mainEvents req s.userMessage fr).drop 4).countP isFetch = 0 := by
    intro req
    rw [mainEvents, List.append_assoc, List.drop_left' (by rfl)]
    simp [List.countP_append, List.countP_cons, hfe, isFetch]
  refine ⟨?_, ?_, ?_⟩
  · rw [submitEvents, if_neg (by simp [h1])]
    exact ⟨hmain _, hdropa _, hdropf _⟩
  · intro hk
    rw [submitEventsKeyed, if_neg (by simp [hk]), if_neg (by simp [h1])]
    exact ⟨hmain _, hdropa _, hdropf _⟩
  · intro hk
    rw [submitEventsKeyed, if_pos hk]

theorem user_turn_before_fetch_witness :
    ((submitEvents { exNoKey with apiKey := "sk-test" } (.response 200 none)).take 4 =
      [.setError "", .setLoading true,
       .appendMessage (Turn.mk "user" { exNoKey with apiKey := "sk-test" }.userMessage),
       .fetchCall (buildRequest { exNoKey with apiKey := "sk-test" })] ∧
     ((submitEvents { exNoKey with apiKey := "sk-test" } (.response 200 none)).drop 4).countP
        isUserAppend = 0 ∧
     ((submitEvents { exNoKey with apiKey := "sk-test" } (.response 200 none)).drop 4).countP
        isFetch = 0) ∧
    (isBlank { exNoKey with apiKey := "sk-test" }.apiKey = false →
      (submitEventsKeyed { exNoKey with apiKey := "sk-test" } (.response 200 none)).take 4 =
        [.setError "", .setLoading true,
         .appendMessage (Turn.mk "user" { exNoKey with apiKey := "sk-test" }.userMessage),
         .fetchCall (buildRequestKeyed { exNoKey with apiKey := "sk-test" })] ∧
      ((submitEventsKeyed { exNoKey with apiKey := "sk-test" } (.response 200 none)).drop 4).countP
          isUserAppend = 0 ∧
      ((submitEventsKeyed { exNoKey with apiKey := "sk-test" } (.response 200 none)).drop 4).countP
          isFetch = 0) ∧
    (isBlank { exNoKey with apiKey := "sk-test" }.apiKey = true →
      submitEventsKeyed { exNoKey with apiKey := "sk-test" } (.response 200 none) =
        [.setError "Please provide an API key"]) :=
  user_turn_before_fetch { exNoKey with apiKey := "sk-test" } (.response 200 none) (by decide)

/-- C6 counterexample: in the trace of a concrete submission, right after
the user turn is appended the loading flag (`isStreaming`) is already
true while the conversation contains NO assistant turn at all, so no
growing assistant turn can exist: `isStreaming` true does not imply a
growing assistant turn, refuting the claimed equivalence. -/
theorem loading_without_assistant_turn_cex :
    ((((submitEvents exInit (.response 500 none)).take 3).foldl applyEvent exInit).isLoading
      = true) ∧
    hasAssistantTurn (((submitEvents exInit (.response 500 none)).take 3).foldl
      applyEvent exInit) = false ∧
    (((submitEvents exInit (.response 500 none)).take 3).foldl applyEvent exInit).messages
      ≠ [] := by
  decide

/-- C6 amended: at most one turn ever grows and growth implies streaming:
every in-place update the submission performs writes an assistant turn,
happens while the loading flag is true, and leaves every turn except the
last unchanged; but the loading flag being true does NOT imply that a
growing assistant turn exists (it is set before the placeholder is
appended and stays set during error recovery). -/
theorem growing_turn_discipline (s : ChatState) (fr : FetchResult)
    (pre post : List Event) (t : Turn)
    (h : submitEvents s fr = pre ++ Event.updateLastMessage t :: post) :
    t.role = "assistant" ∧
    (pre.foldl applyEvent s).isLoading = true ∧
    ((pre ++ [Event.updateLastMessage t]).foldl applyEvent s).messages.dropLast =
      (pre.foldl applyEvent s).messages.dropLast := by
  have hdrop : ((pre ++ [Event.updateLastMessage t]).foldl applyEvent s).messages.dropLast =
      (pre.foldl applyEvent s).messages.dropLast := by
    rw [List.foldl_append]
    exact update_dropLast _ t
  by_cases hb : isBlank s.userMessage = true
  · exfalso
    rw [submitEvents, if_pos (by simp [hb])] at h
    match pre, h with
    | [], h => simp at h
    | y :: ys, h =>
      rw [List.cons_append] at h
      have h2 := (List.cons.injEq _ _ _ _).mp h
      have := h2.2
      simp at this
  · have hb' : isBlank s.userMessage = false := by
      simpa using hb
    rw [submitEvents, if_neg (by simp [hb']), mainEvents, List.append_assoc] at h
    have hnotin : Event.updateLastMessage t ∉
        ([.setError "", .setLoading true, .appendMessage (Turn.mk "user" s.userMessage),
          .fetchCall (buildRequest s)] : List Event) := by simp
    obtain ⟨pre2, rfl, h2⟩ := split_notin_left _ h hnotin
    have hnotin2 : Event.updateLastMessage t ∉ ([Event.setLoading false] : List Event) := by
      simp
    obtain ⟨post1, rfl, h3⟩ := split_notin_right _ h2 hnotin2
    have hmem : Event.updateLastMessage t ∈ branchEvents fr := by
      rw [h3]
      exact List.mem_append.mpr (Or.inr (List.mem_cons_self _ _))
    have hrole : t.role = "assistant" := by
      match fr with
      | .netError e => simp [branchEvents, catchEvents] at hmem
      | .response status body =>
        by_cases hok : okStatus status
        · rw [branchEvents, if_pos hok] at hmem
          match body with
          | none => simp [streamEvents, catchEvents] at hmem
          | some ⟨chunks, none⟩ =>
            simp only [streamEvents, List.mem_cons, List.mem_append] at hmem
            rcases hmem with (hmem | hmem) | hmem
            · exact absurd hmem (by simp)
            · obtain ⟨t2, heq, hr⟩ := mem_incrementEvents _ _ _ _ hmem
              injection heq with h4
              rw [h4]
              exact hr
            · simp at hmem
          | some ⟨chunks, some e2⟩ =>
            simp only [streamEvents, List.mem_cons, List.mem_append] at hmem
            rcases hmem with (hmem | hmem) | hmem
            · exact absurd hmem (by simp)
            · obtain ⟨t2, heq, hr⟩ := mem_incrementEvents _ _ _ _ hmem
              injection heq with h4
              rw [h4]
              exact hr
            · simp [catchEvents] at hmem
        · rw [branchEvents, if_neg hok] at hmem
          simp [catchEvents] at hmem
    refine ⟨hrole, ?_, hdrop⟩
    rw [List.foldl_append]
    have hh : (([.setError "", .setLoading true,
        .appendMessage (Turn.mk "user" s.userMessage),
        .fetchCall (buildRequest s)] : List Event).foldl applyEvent s).isLoading = true := by
      simp [applyEvent]
    rw [foldl_isLoading_const pre2 _
      (fun e he => branch_no_setLoading fr e (by rw [h3]; exact List.mem_append_left _ he))]
    exact hh

theorem growing_turn_discipline_witness :
    (Turn.mk "assistant" "H").role = "assistant" ∧
    (([.setError "", .setLoading true, .appendMessage (Turn.mk "user" "Hi"),
       .fetchCall (buildRequest exInit), .appendMessage (Turn.mk "assistant" "")] :
       List Event).foldl applyEvent exInit).isLoading = true ∧
    ((([.setError "", .setLoading true, .appendMessage (Turn.mk "user" "Hi"),
       .fetchCall (buildRequest exInit), .appendMessage (Turn.mk "assistant" "")] :
       List Event) ++ [Event.updateLastMessage (Turn.mk "assistant" "H")]).foldl applyEvent
        exInit).messages.dropLast =
      (([.setError "", .setLoading true, .appendMessage (Turn.mk "user" "Hi"),
       .fetchCall (buildRequest exInit), .appendMessage (Turn.mk "assistant" "")] :
       List Event).foldl applyEvent exInit).messages.dropLast :=
  growing_turn_discipline exInit (.response 200 (some (StreamBody.mk [[72]] none)))
    [.setError "", .setLoading true, .appendMessage (Turn.mk "user" "Hi"),
     .fetchCall (buildRequest exInit), .appendMessage (Turn.mk "assistant" "")]
    [.setUserMessage "", .setLoading false] (Turn.mk "assistant" "H") (by decide)
